import Mathlib

/-! NFT marketplace indexer: record stores, live event handlers and backfill.

A shallow embedding of `src/index.js` together with the schemas of
`src/models/Item.js` and `src/models/Offer.js`.

* A record store (a MongoDB collection) is the list of its documents in natural
  (insertion) order.  `findOne` gives the first document that matches the filter,
  `save` on a found document rewrites that document in place, `save` on a new
  document appends it, `deleteMany` removes every match.
* Chain integers (`uint256`, delivered as big numbers) are natural numbers.  A
  price or token id that a handler writes through `toString()` into a field of
  schema type `Number` is stored as the nearest double (`castNumber`).  Item and
  collection ids are sequential counters of the contract, far below `2 ^ 53`,
  where that cast changes nothing; they are kept as they are.  The backfill copies
  the numbers of the resolver's records as the resolver gives them.
* Chain addresses are delivered as checksummed hexadecimal strings, never empty;
  they are represented by the number the string denotes, so the `required`
  validator of the string fields is met by construction.
* An asynchronous call that may reject (a contract read, a resolver call) is an
  `Option`; a handler or backfill step that throws is reported with an `Err`.
-/

namespace Indexer

/-- A chain address (the number denoted by the hexadecimal string). -/
abbrev Address := Nat

/-- Reasons for which a handler or a backfill step throws. -/
inductive Err where
  | validation
  | duplicateKey
  | resolver
  | typeError
  | chain
  | storeDown
deriving DecidableEq, Repr

/-! ## The numeric cast of the store -/

/-- The number of low bits a natural number loses when it is written with a
53-bit significand: the least `e` with `n / 2 ^ e < 2 ^ 53` (the fuel `n` is
never used up, see `dropBits_spec`). -/
def dropBits : Nat → Nat → Nat
  | 0, _ => 0
  | fuel + 1, n => if n < 2 ^ 53 then 0 else dropBits fuel (n / 2) + 1

/-- The cast of the decimal string of a natural number to the schema type
`Number` (`Number(str)`): the nearest double, a tie going to the even
significand.  Chain integers are below `2 ^ 256`, far from the overflow of
doubles. -/
def castNumber (n : Nat) : Nat :=
  let e := dropBits n n
  if e = 0 then n
  else
    let q := n / 2 ^ e
    let r := n % 2 ^ e
    let half := 2 ^ (e - 1)
    if half < r ∨ (r = half ∧ q % 2 = 1) then (q + 1) * 2 ^ e else q * 2 ^ e

/-! ## Data model -/

/-- Modelled from the spec: the document shape of the Collection schema
(`src/models/Collection.js` is imported by `index.js` but absent).  Section 3 of
the spec gives it an integer `id` and an address string `nftCollection`, the two
fields `index.js` writes. -/
structure Collection where
  id : Nat
  nftCollection : Address
deriving DecidableEq, Repr

/-- The document shape of `itemSchema` (`src/models/Item.js`). -/
structure Item where
  id : Nat
  nftContract : Address
  tokenId : Nat
  owner : Address
  price : Nat
  name : Option String
  description : Option String
  image : Option String
deriving DecidableEq, Repr

/-- The document shape of `offerSchema` (`src/models/Offer.js`). -/
structure Offer where
  itemId : Nat
  offerer : Address
  seller : Address
  price : Nat
  isAccepted : Bool
deriving DecidableEq, Repr

/-- The three record stores. -/
structure Store where
  collections : List Collection
  items : List Item
  offers : List Offer
deriving DecidableEq, Repr

/-! ## Record-store operations -/

section StoreOps

variable {α : Type}

/-- The query `Model.findOne(filter)`: the first matching document, if any. -/
def findOne (filter : α → Bool) (docs : List α) : Option α :=
  docs.find? filter

/-- The call `doc.save()` on the document that `findOne(filter)` returned: the
modified fields are written to that same document, the others stay. -/
def saveFound (filter : α → Bool) (modify : α → α) : List α → List α
  | [] => []
  | d :: ds => if filter d then modify d :: ds else d :: saveFound filter modify ds

/-- The call `Model.deleteMany(filter)`. -/
def deleteMany (filter : α → Bool) (docs : List α) : List α :=
  docs.filter (fun d => !filter d)

/-- The call `doc.save()` on a new document whose schema declares
`id: { unique: true, min: 1 }`: the validator runs first, then the unique index
rejects an id that is already stored. -/
def saveNew (key : α → Nat) (doc : α) (docs : List α) : Except Err (List α) :=
  if key doc < 1 then Except.error Err.validation
  else if docs.any (fun d => key d == key doc) then Except.error Err.duplicateKey
  else Except.ok (docs ++ [doc])

/-- The ordered insertion behind `Model.insertMany`: documents go in one by one
and the first duplicate key stops the operation, the earlier ones staying. -/
def insertOrdered (key : α → Nat) : List α → List α → List α × Option Err
  | [], docs => (docs, none)
  | d :: ds, docs =>
    if docs.any (fun e => key e == key d) then (docs, some Err.duplicateKey)
    else insertOrdered key ds (docs ++ [d])

/-- The call `Model.insertMany(docs)` under a schema with
`id: { unique: true, min: 1 }`: all documents are validated before any is
written. -/
def insertMany (key : α → Nat) (newDocs docs : List α) : List α × Option Err :=
  if newDocs.all (fun d => decide (1 ≤ key d)) then insertOrdered key newDocs docs
  else (docs, some Err.validation)

end StoreOps

/-- Modelled from the spec: `collection.save()` on a new Collection document.  The
Collection schema (`src/models/Collection.js`) is imported by `index.js` but
absent; section 3 of the spec declares the Collection `id` a unique positive
integer, which is what `itemSchema` declares for the Item `id`, so the same
validator and unique index apply. -/
def saveNewCollection (doc : Collection) (docs : List Collection) :
    Except Err (List Collection) :=
  saveNew Collection.id doc docs

/-- Modelled from the spec: `Collection.insertMany(docs)` under the Collection
schema described at `saveNewCollection`. -/
def insertManyCollections (newDocs docs : List Collection) :
    List Collection × Option Err :=
  insertMany Collection.id newDocs docs

/-! ## The resolver (`sdk`) and the contract -/

/-- The part of a resolved item that the handlers read (`item.owner`). -/
structure ItemInfo where
  owner : Address
deriving DecidableEq, Repr

/-- The descriptive metadata of an item. -/
structure Metadata where
  name : Option String
  description : Option String
  image : Option String
deriving DecidableEq, Repr

/-- The answer of `sdk.getItem(id)`: `item` may be missing, and so may
`metadata` (reading `metadata.data.name` then throws). -/
structure GetItemResult where
  item : Option ItemInfo
  metadata : Option Metadata
deriving DecidableEq, Repr

/-- An element of the `items` list of `sdk.loadItems()`. -/
structure ChainItem where
  id : Nat
  nftContract : Address
  tokenId : Nat
  owner : Address
  price : Nat
deriving DecidableEq, Repr

/-- An element of the list `sdk.getOffers(id)` returns. -/
structure ChainOffer where
  offerer : Address
  seller : Address
  price : Nat
  isAccepted : Bool
deriving DecidableEq, Repr

/-- The resolver; `none` is a rejected call. -/
structure Sdk where
  getItem : Nat → Option GetItemResult
  loadItems : Option (List ChainItem × List (Option Metadata))
  getOffers : Nat → Option (List ChainOffer)

/-- The read methods of the marketplace contract; `none` is a rejected call. -/
structure Contract where
  collectionCount : Option Nat
  collections : Nat → Option Address
  itemCount : Option Nat

/-! ## Live event handlers (`contract.on(...)` in `start`) -/

/-- Handler of `LogCollectionAdded`. -/
def handleLogCollectionAdded (id : Nat) (nftCollection : Address) (s : Store) :
    Except Err Store :=
  match saveNewCollection { id := id, nftCollection := nftCollection } s.collections with
  | Except.error e => Except.error e
  | Except.ok cs => Except.ok { s with collections := cs }

/-- Handler of `LogItemAdded`. -/
def handleLogItemAdded (sdk : Sdk) (id : Nat) (nftContract : Address) (tokenId : Nat)
    (owner : Address) (s : Store) : Except Err Store :=
  match sdk.getItem id with
  | none => Except.error Err.resolver
  | some r =>
    match r.metadata with
    | none => Except.error Err.typeError
    | some metadata =>
      let itemNew : Item :=
        { id := id, nftContract := nftContract, tokenId := castNumber tokenId, owner := owner,
          price := 0, name := metadata.name, description := metadata.description,
          image := metadata.image }
      match saveNew Item.id itemNew s.items with
      | Except.error e => Except.error e
      | Except.ok items => Except.ok { s with items := items }

/-- Handler of `LogItemListed`. -/
def handleLogItemListed (id : Nat) (_nftContract : Address) (_tokenId : Nat)
    (_seller : Address) (price : Nat) (s : Store) : Except Err Store :=
  match findOne (fun it : Item => it.id == id) s.items with
  | none => Except.ok s
  | some _ =>
    Except.ok { s with
      items := saveFound (fun it : Item => it.id == id)
        (fun it => { it with price := castNumber price }) s.items }

/-- Handler of `LogItemSold`. -/
def handleLogItemSold (id : Nat) (_nftContract : Address) (_tokenId : Nat)
    (_seller buyer : Address) (_price : Nat) (s : Store) : Except Err Store :=
  match findOne (fun it : Item => it.id == id) s.items with
  | none => Except.ok s
  | some _ =>
    Except.ok { s with
      items := saveFound (fun it : Item => it.id == id)
        (fun it => { it with owner := buyer, price := 0 }) s.items }

/-- Handler of `LogOfferPlaced`. -/
def handleLogOfferPlaced (sdk : Sdk) (id : Nat) (_nftContract : Address) (_tokenId : Nat)
    (buyer : Address) (price : Nat) (s : Store) : Except Err Store :=
  match sdk.getItem id with
  | none => Except.error Err.resolver
  | some r =>
    match r.item with
    | none => Except.ok s
    | some item =>
      let seller := item.owner
      let filter := fun o : Offer => o.itemId == id && o.offerer == buyer && o.seller == seller
      match findOne filter s.offers with
      | some _ =>
        Except.ok { s with
          offers := saveFound filter
            (fun o => { o with price := castNumber price, isAccepted := false }) s.offers }
      | none =>
        Except.ok { s with
          offers := s.offers ++
            [{ itemId := id, offerer := buyer, seller := seller,
               price := castNumber price, isAccepted := false }] }

/-- Handler of `LogOfferAccepted`. -/
def handleLogOfferAccepted (id : Nat) (offerer : Address) (s : Store) : Except Err Store :=
  let filter := fun o : Offer => o.itemId == id && o.offerer == offerer
  match findOne filter s.offers with
  | none => Except.ok s
  | some _ =>
    Except.ok { s with
      offers := saveFound filter (fun o => { o with isAccepted := true }) s.offers }

/-- Handler of `LogItemClaimed`. -/
def handleLogItemClaimed (id : Nat) (claimer : Address) (s : Store) : Except Err Store :=
  match findOne (fun it : Item => it.id == id) s.items with
  | none => Except.ok s
  | some _ =>
    Except.ok
      { s with
        items := saveFound (fun it : Item => it.id == id)
          (fun it => { it with owner := claimer, price := 0 }) s.items
        offers := deleteMany (fun o : Offer => o.itemId == id) s.offers }

/-- The seven events the indexer subscribes to, with their payloads. -/
inductive Event where
  | LogCollectionAdded (id : Nat) (nftCollection : Address)
  | LogItemAdded (id : Nat) (nftContract : Address) (tokenId : Nat) (owner : Address)
  | LogItemListed (id : Nat) (nftContract : Address) (tokenId : Nat) (seller : Address)
      (price : Nat)
  | LogItemSold (id : Nat) (nftContract : Address) (tokenId : Nat) (seller buyer : Address)
      (price : Nat)
  | LogOfferPlaced (id : Nat) (nftContract : Address) (tokenId : Nat) (buyer : Address)
      (price : Nat)
  | LogOfferAccepted (id : Nat) (offerer : Address)
  | LogItemClaimed (id : Nat) (claimer : Address)
deriving DecidableEq, Repr

/-- Dispatch of an event to the handler registered under its name. -/
def handle (sdk : Sdk) : Event → Store → Except Err Store
  | Event.LogCollectionAdded id c => handleLogCollectionAdded id c
  | Event.LogItemAdded id nc t o => handleLogItemAdded sdk id nc t o
  | Event.LogItemListed id nc t sl p => handleLogItemListed id nc t sl p
  | Event.LogItemSold id nc t sl b p => handleLogItemSold id nc t sl b p
  | Event.LogOfferPlaced id nc t b p => handleLogOfferPlaced sdk id nc t b p
  | Event.LogOfferAccepted id o => handleLogOfferAccepted id o
  | Event.LogItemClaimed id c => handleLogItemClaimed id c

/-- The record stores after an event has been handled to completion: a handler
that throws does so before its first write, so the stores are then as before. -/
def applyEvent (sdk : Sdk) (ev : Event) (s : Store) : Store :=
  match handle sdk ev s with
  | Except.ok s1 => s1
  | Except.error _ => s

/-! ## Backfill -/

/-- The combinator `Promise.all`: rejects as soon as one promise does. -/
def promiseAll {α : Type} : List (Option α) → Option (List α)
  | [] => some []
  | none :: _ => none
  | some a :: rest =>
    match promiseAll rest with
    | none => none
    | some as => some (a :: as)

/-- The array `[1, ..., n]` built by
`Array.from(Array(n).keys()).map(i => i + 1)`. -/
def countArr (n : Nat) : List Nat :=
  (List.range n).map (fun i => i + 1)

/-- The array `collectionsToSave`. -/
def collectionsToSave (collections : List Address) : List Collection :=
  collections.enum.map (fun ic => { id := ic.1 + 1, nftCollection := ic.2 })

/-- The function `inputExistingCollections`; `up` tells whether the record store
answers.  The result is the store left behind and the error thrown, if any. -/
def inputExistingCollections (up : Bool) (contract : Contract) (s : Store) :
    Store × Option Err :=
  if !up then (s, some Err.storeDown)
  else
    let s1 : Store := { s with collections := deleteMany (fun _ => true) s.collections }
    match contract.collectionCount with
    | none => (s1, some Err.chain)
    | some collectionCount =>
      let collectionCountArr := countArr collectionCount
      let promises := collectionCountArr.map contract.collections
      match promiseAll promises with
      | none => (s1, some Err.chain)
      | some collections =>
        let r := insertManyCollections (collectionsToSave collections) s1.collections
        ({ s1 with collections := r.1 }, r.2)

/-- The array `combinedItems`: each item with the metadata at its position. -/
def combinedItems (items : List ChainItem) (metadataArrModified : List (Option Metadata)) :
    List (ChainItem × Option Metadata) :=
  items.enum.map (fun ii => (ii.2, (metadataArrModified.get? ii.1).join))

/-- The array `itemsToSave`; reading a field of a missing metadata entry throws. -/
def itemsToSave : List (ChainItem × Option Metadata) → Option (List Item)
  | [] => some []
  | (_, none) :: _ => none
  | (item, some metadata) :: rest =>
    match itemsToSave rest with
    | none => none
    | some docs =>
      some ({ id := item.id, nftContract := item.nftContract, tokenId := item.tokenId,
              owner := item.owner, price := item.price, name := metadata.name,
              description := metadata.description, image := metadata.image } :: docs)

/-- The function `inputExistingItems`. -/
def inputExistingItems (up : Bool) (sdk : Sdk) (s : Store) : Store × Option Err :=
  if !up then (s, some Err.storeDown)
  else
    let s1 : Store := { s with items := deleteMany (fun _ => true) s.items }
    match sdk.loadItems with
    | none => (s1, some Err.resolver)
    | some (items, metadataArrModified) =>
      match itemsToSave (combinedItems items metadataArrModified) with
      | none => (s1, some Err.typeError)
      | some docs =>
        let r := insertMany Item.id docs s1.items
        ({ s1 with items := r.1 }, r.2)

/-- The array `offersToSave`: the `map` leaves `undefined` (here `none`) at an
index whose offer list is empty, and `filter(offer => offer)` drops those. -/
def offersToSave (offers : List (List ChainOffer)) : List Offer :=
  ((offers.enum.map (fun io =>
      match io.2 with
      | [] => (none : Option Offer)
      | first :: _ =>
        some { itemId := io.1 + 1, offerer := first.offerer, seller := first.seller,
               price := first.price, isAccepted := first.isAccepted })).filter
    Option.isSome).filterMap id

/-- The function `inputExistingOffers`. -/
def inputExistingOffers (up : Bool) (contract : Contract) (sdk : Sdk) (s : Store) :
    Store × Option Err :=
  if !up then (s, some Err.storeDown)
  else
    let s1 : Store := { s with offers := deleteMany (fun _ => true) s.offers }
    match contract.itemCount with
    | none => (s1, some Err.chain)
    | some itemCoutn =>
      let itemCountArr := countArr itemCoutn
      let promises := itemCountArr.map sdk.getOffers
      match promiseAll promises with
      | none => (s1, some Err.resolver)
      | some offers => ({ s1 with offers := s1.offers ++ offersToSave offers }, none)

/-! ## Startup -/

/-- The observable steps of `start`, in the order in which they happen. -/
inductive Step where
  | connected
  | connectError
  | inputExistingCollections
  | inputExistingItems
  | inputExistingOffers
  | handlersRegistered
deriving DecidableEq, Repr

/-- What the backfill sequence leaves: the steps entered, the stores, and the
error thrown by the last step entered, if any. -/
structure BackfillResult where
  steps : List Step
  store : Store
  error : Option Err
deriving DecidableEq, Repr

/-- What a run of `start` leaves: the steps taken, the stores, whether the live
handlers were registered, and the error with which `start` rejected, if any. -/
structure StartResult where
  steps : List Step
  store : Store
  listening : Bool
  error : Option Err
deriving DecidableEq, Repr

/-- The three backfill calls of `start`, each awaited before the next; a step
that throws ends the sequence. -/
def backfill (up : Bool) (contract : Contract) (sdk : Sdk) (s : Store) : BackfillResult :=
  match inputExistingCollections up contract s with
  | (s1, some e) => ⟨[Step.inputExistingCollections], s1, some e⟩
  | (s1, none) =>
    match inputExistingItems up sdk s1 with
    | (s2, some e) =>
      ⟨[Step.inputExistingCollections, Step.inputExistingItems], s2, some e⟩
    | (s2, none) =>
      match inputExistingOffers up contract sdk s2 with
      | (s3, e) =>
        ⟨[Step.inputExistingCollections, Step.inputExistingItems,
          Step.inputExistingOffers], s3, e⟩

/-- The function `start`: `connectOk` is the outcome of `mongoose.connect`, whose
failure is caught and logged; the backfill is called in either case and the
handlers are registered once it has returned.  The models of `index.js` use the
connection that `mongoose.connect` opens, so the record store answers the backfill
exactly when that call succeeded. -/
def start (connectOk : Bool) (contract : Contract) (sdk : Sdk) (s : Store) : StartResult :=
  let first := if connectOk then Step.connected else Step.connectError
  let b := backfill connectOk contract sdk s
  match b.error with
  | some e => ⟨first :: b.steps, b.store, false, some e⟩
  | none => ⟨first :: b.steps ++ [Step.handlersRegistered], b.store, true, none⟩

/-! ## The offer selection as the spec words it -/

/-- The selection of section 4.1 of the spec, in the spec's words: item `i`
contributes nothing when its offer list is empty and its first offer, stored
under `itemId = i`, otherwise. -/
def firstOffer (L : Nat → List ChainOffer) (i : Nat) : Option Offer :=
  match L i with
  | [] => none
  | first :: _ =>
    some { itemId := i, offerer := first.offerer, seller := first.seller,
           price := first.price, isAccepted := first.isAccepted }

/-! ## Lemmas on the numeric cast -/

theorem dropBits_of_lt (fuel n : Nat) (h : n < 2 ^ 53) : dropBits fuel n = 0 := by
  cases fuel with
  | zero => rfl
  | succ f =>
    unfold dropBits
    rw [if_pos h]

theorem dropBits_spec (fuel n : Nat) (h : n ≤ fuel) : n / 2 ^ dropBits fuel n < 2 ^ 53 := by
  induction fuel generalizing n with
  | zero =>
    have h0 : n = 0 := by omega
    subst h0
    show 0 / 2 ^ 0 < 2 ^ 53
    decide
  | succ f ih =>
    unfold dropBits
    by_cases hn : n < 2 ^ 53
    · rw [if_pos hn, Nat.pow_zero, Nat.div_one]
      exact hn
    · rw [if_neg hn]
      have hbig : 2 ≤ n := by
        have : (2 : Nat) ≤ 2 ^ 53 := by decide
        omega
      have h2 : n / 2 ≤ f := by omega
      have := ih (n / 2) h2
      rw [Nat.pow_succ, Nat.mul_comm, ← Nat.div_div_eq_div_mul]
      exact this

theorem castNumber_of_lt (n : Nat) (h : n < 2 ^ 53) : castNumber n = n := by
  unfold castNumber
  simp only [dropBits_of_lt n n h, if_true]

/-- The cast is a rounding to a 53-bit significand: with `e = dropBits n n`, the
result is a multiple of `2 ^ e` whose quotient by `2 ^ e` is at most `2 ^ 53`, and
it lies within half of `2 ^ e` of `n`. -/
theorem castNumber_spec (n : Nat) :
    2 ^ dropBits n n ∣ castNumber n ∧
      castNumber n / 2 ^ dropBits n n ≤ 2 ^ 53 ∧
      2 * (castNumber n - n) ≤ 2 ^ dropBits n n ∧
      2 * (n - castNumber n) ≤ 2 ^ dropBits n n := by
  have hq : n / 2 ^ dropBits n n < 2 ^ 53 := dropBits_spec n n (Nat.le_refl n)
  have hpos : 0 < 2 ^ dropBits n n := Nat.pos_pow_of_pos _ (by decide)
  by_cases he : dropBits n n = 0
  · have hc : castNumber n = n := by
      unfold castNumber
      simp only [he, if_true]
    rw [hc]
    rw [he] at hq ⊢
    simp only [Nat.pow_zero, Nat.div_one] at hq ⊢
    exact ⟨Nat.one_dvd n, Nat.le_of_lt hq, by omega, by omega⟩
  · have hhalf : 2 ^ dropBits n n = 2 * 2 ^ (dropBits n n - 1) := by
      have hsucc : dropBits n n = (dropBits n n - 1) + 1 := by omega
      conv_lhs => rw [hsucc, Nat.pow_succ]
      exact Nat.mul_comm _ _
    have hsplit : 2 ^ dropBits n n * (n / 2 ^ dropBits n n) + n % 2 ^ dropBits n n = n :=
      Nat.div_add_mod n (2 ^ dropBits n n)
    have hr : n % 2 ^ dropBits n n < 2 ^ dropBits n n := Nat.mod_lt n hpos
    by_cases hup : 2 ^ (dropBits n n - 1) < n % 2 ^ dropBits n n ∨
        (n % 2 ^ dropBits n n = 2 ^ (dropBits n n - 1) ∧ n / 2 ^ dropBits n n % 2 = 1)
    · have hc : castNumber n = (n / 2 ^ dropBits n n + 1) * 2 ^ dropBits n n := by
        unfold castNumber
        simp only [he, if_false, hup, if_true]
      have hexp : (n / 2 ^ dropBits n n + 1) * 2 ^ dropBits n n =
          2 ^ dropBits n n * (n / 2 ^ dropBits n n) + 2 ^ dropBits n n := by
        rw [Nat.succ_mul, Nat.mul_comm]
      refine ⟨?_, ?_, ?_, ?_⟩
      · rw [hc]
        exact Nat.dvd_mul_left _ _
      · rw [hc, Nat.mul_div_cancel _ hpos]
        exact hq
      · rw [hc, hexp]
        rcases hup with h | ⟨h, _⟩ <;> omega
      · rw [hc, hexp]
        omega
    · have hc : castNumber n = n / 2 ^ dropBits n n * 2 ^ dropBits n n := by
        unfold castNumber
        simp only [he, if_false, hup]
      have hexp : n / 2 ^ dropBits n n * 2 ^ dropBits n n =
          2 ^ dropBits n n * (n / 2 ^ dropBits n n) := Nat.mul_comm _ _
      have hle : n % 2 ^ dropBits n n ≤ 2 ^ (dropBits n n - 1) := by
        by_contra hcon
        exact hup (Or.inl (by omega))
      refine ⟨?_, ?_, ?_, ?_⟩
      · rw [hc]
        exact Nat.dvd_mul_left _ _
      · rw [hc, Nat.mul_div_cancel _ hpos]
        exact Nat.le_of_lt hq
      · rw [hc, hexp]
        omega
      · rw [hc, hexp]
        omega

/-- The cast at the two amounts used below: `2 ^ 53 + 1` and one ether plus one
wei lose their last unit, a small amount is kept. -/
theorem castNumber_examples :
    castNumber 9007199254740993 = 9007199254740992 ∧
      castNumber 1000000000000000001 = 1000000000000000000 ∧
      castNumber 1000000000000000000 = 1000000000000000000 ∧
      castNumber 500 = 500 := by
  decide

/-! ## Lemmas on the record-store operations -/

section StoreLemmas

variable {α : Type}

theorem findOne_eq_none_iff (filter : α → Bool) (docs : List α) :
    findOne filter docs = none ↔ ∀ d ∈ docs, filter d = false := by
  simp [findOne, List.find?_eq_none]

theorem findOne_of_mem (filter : α → Bool) (docs : List α) (d : α) (hd : d ∈ docs)
    (hf : filter d = true) : ∃ e, findOne filter docs = some e := by
  cases h : findOne filter docs with
  | some e => exact ⟨e, rfl⟩
  | none =>
    rw [findOne_eq_none_iff] at h
    rw [h d hd] at hf
    cases hf

theorem findOne_saveFound (filter : α → Bool) (modify : α → α)
    (hkeep : ∀ d, filter d = true → filter (modify d) = true) (docs : List α) :
    findOne filter (saveFound filter modify docs) = (findOne filter docs).map modify := by
  induction docs with
  | nil => rfl
  | cons d ds ih =>
    by_cases hd : filter d = true
    · simp [saveFound, findOne, hd, hkeep d hd]
    · simp only [Bool.not_eq_true] at hd
      simpa [saveFound, findOne, hd] using ih

theorem saveFound_saveFound (filter : α → Bool) (modify : α → α)
    (hkeep : ∀ d, filter d = true → filter (modify d) = true)
    (hidem : ∀ d, modify (modify d) = modify d) (docs : List α) :
    saveFound filter modify (saveFound filter modify docs) = saveFound filter modify docs := by
  induction docs with
  | nil => rfl
  | cons d ds ih =>
    by_cases hd : filter d = true
    · simp [saveFound, hd, hkeep d hd, hidem]
    · simp only [Bool.not_eq_true] at hd
      simp [saveFound, hd, ih]

theorem saveFound_append_new (filter : α → Bool) (modify : α → α) (docs : List α) (doc : α)
    (hnone : findOne filter docs = none) (hdoc : filter doc = true) :
    saveFound filter modify (docs ++ [doc]) = docs ++ [modify doc] := by
  induction docs with
  | nil => simp [saveFound, hdoc]
  | cons d ds ih =>
    have hd : filter d = false := (findOne_eq_none_iff filter (d :: ds)).1 hnone d (by simp)
    have hds : findOne filter ds = none := by
      rw [findOne_eq_none_iff] at hnone ⊢
      intro e he
      exact hnone e (by simp [he])
    simp [saveFound, hd, ih hds]

theorem findOne_append_new (filter : α → Bool) (docs : List α) (doc : α)
    (hnone : findOne filter docs = none) (hdoc : filter doc = true) :
    findOne filter (docs ++ [doc]) = some doc := by
  unfold findOne at hnone ⊢
  simp [List.find?_append, hnone, hdoc]

theorem saveFound_filter_other (filter keep : α → Bool) (modify : α → α)
    (hkeep : ∀ d, keep (modify d) = keep d)
    (hdisj : ∀ d, filter d = true → keep d = false) (docs : List α) :
    (saveFound filter modify docs).filter keep = docs.filter keep := by
  induction docs with
  | nil => rfl
  | cons d ds ih =>
    by_cases hd : filter d = true
    · simp [saveFound, hd, List.filter_cons, hkeep, hdisj d hd]
    · simp only [Bool.not_eq_true] at hd
      simp [saveFound, hd, List.filter_cons, ih]

theorem length_saveFound (filter : α → Bool) (modify : α → α) (docs : List α) :
    (saveFound filter modify docs).length = docs.length := by
  induction docs with
  | nil => rfl
  | cons d ds ih =>
    by_cases hd : filter d = true
    · simp [saveFound, hd]
    · simp only [Bool.not_eq_true] at hd
      simp [saveFound, hd, ih]

theorem deleteMany_deleteMany (filter : α → Bool) (docs : List α) :
    deleteMany filter (deleteMany filter docs) = deleteMany filter docs := by
  simp [deleteMany, List.filter_filter]

theorem saveNew_saveNew (key : α → Nat) (doc : α) (docs docs1 : List α)
    (h : saveNew key doc docs = Except.ok docs1) :
    ∃ e, saveNew key doc docs1 = Except.error e := by
  unfold saveNew at h
  split at h
  · cases h
  · rename_i hkey
    split at h
    · cases h
    · cases h
      refine ⟨Err.duplicateKey, ?_⟩
      simp [saveNew, hkey]

end StoreLemmas

/-! ## Theorems on the live handlers -/

theorem findOne_item_unique (items : List Item) (id : Nat) (it it0 : Item)
    (hfound : findOne (fun i : Item => i.id == id) items = some it)
    (hmem : it0 ∈ items) (hid : it0.id = id) (hnodup : (items.map Item.id).Nodup) :
    it = it0 := by
  have h1 : it ∈ items := List.mem_of_find?_eq_some hfound
  have h2 : it.id = id := by
    simpa using List.find?_some hfound
  exact List.inj_on_of_nodup_map hnodup h1 hmem (h2.trans hid.symm)

/-- C4. Defensive no-op of the `LogItemSold` handler: when the store holds no Item
with the event's id, the handler completes without error and every store (Items,
Offers, Collections) is exactly as it was, so no record is created anywhere. -/
theorem handleLogItemSold_missing_item (s : Store) (id : Nat) (nftContract : Address)
    (tokenId : Nat) (seller buyer : Address) (price : Nat)
    (habsent : ∀ it ∈ s.items, it.id ≠ id) :
    handleLogItemSold id nftContract tokenId seller buyer price s = Except.ok s := by
  have hnone : findOne (fun it : Item => it.id == id) s.items = none := by
    rw [findOne_eq_none_iff]
    intro it hit
    simpa using habsent it hit
  simp [handleLogItemSold, hnone]

theorem handleLogItemSold_missing_item_witness :
    (∀ it ∈ (⟨[], [⟨5, 0xC1, 3, 0xA, 0, none, none, none⟩], [⟨7, 0xB, 0xA, 100, false⟩]⟩ :
        Store).items, it.id ≠ 7) ∧
      handleLogItemSold 7 0xC1 3 0xA 0xB 500
          ⟨[], [⟨5, 0xC1, 3, 0xA, 0, none, none, none⟩], [⟨7, 0xB, 0xA, 100, false⟩]⟩ =
        Except.ok ⟨[], [⟨5, 0xC1, 3, 0xA, 0, none, none, none⟩], [⟨7, 0xB, 0xA, 100, false⟩]⟩ :=
  ⟨by decide, handleLogItemSold_missing_item _ 7 0xC1 3 0xA 0xB 500 (by decide)⟩

/-- C2. Claim cascade of the `LogItemClaimed` handler: when the store holds an
Item `it0` with the event's id (whatever the number of Offers for that id), the
handler completes without error; the Item `it` that the store returns for that id
(which is `it0` when ids are unique, as the index on `id` has them) is afterwards
stored with `owner = claimer` and `price = 0`, no Offer with `itemId = id` remains,
the Offers of other items are all kept, and the Items of other ids and the
Collections are untouched. -/
theorem handleLogItemClaimed_cascade (s : Store) (id : Nat) (claimer : Address) (it0 : Item)
    (hmem : it0 ∈ s.items) (hid : it0.id = id) :
    ∃ it s1, findOne (fun i : Item => i.id == id) s.items = some it ∧
      ((s.items.map Item.id).Nodup → it = it0) ∧
      handleLogItemClaimed id claimer s = Except.ok s1 ∧
      findOne (fun i : Item => i.id == id) s1.items =
        some { it with owner := claimer, price := 0 } ∧
      (∀ o ∈ s1.offers, o.itemId ≠ id) ∧
      s1.offers = s.offers.filter (fun o => o.itemId != id) ∧
      s1.items.filter (fun i => i.id != id) = s.items.filter (fun i => i.id != id) ∧
      s1.items.length = s.items.length ∧
      s1.collections = s.collections := by
  obtain ⟨it, hfound⟩ := findOne_of_mem (fun i : Item => i.id == id) s.items it0 hmem
    (by simp [hid])
  have hrun : handleLogItemClaimed id claimer s = Except.ok
      ⟨s.collections,
        saveFound (fun i : Item => i.id == id)
          (fun i => { i with owner := claimer, price := 0 }) s.items,
        deleteMany (fun o : Offer => o.itemId == id) s.offers⟩ := by
    simp only [handleLogItemClaimed, hfound]
  refine ⟨it, _, hfound, findOne_item_unique s.items id it it0 hfound hmem hid, hrun,
    ?_, ?_, ?_, ?_, ?_, rfl⟩
  · show findOne _ (saveFound _ _ s.items) = _
    rw [findOne_saveFound, hfound]
    · rfl
    · intro d hd
      exact hd
  · intro o ho
    simp only [deleteMany, List.mem_filter] at ho
    simpa using ho.2
  · show deleteMany _ s.offers = _
    simp [deleteMany, bne]
  · show (saveFound _ _ s.items).filter _ = _
    apply saveFound_filter_other
    · intro d; rfl
    · intro d hd
      simpa [bne] using hd
  · show (saveFound _ _ s.items).length = _
    rw [length_saveFound]

theorem handleLogItemClaimed_cascade_witness :
    (⟨7, 0xC1, 3, 0xA, 500, none, none, none⟩ : Item) ∈
        (⟨[], [⟨7, 0xC1, 3, 0xA, 500, none, none, none⟩],
          [⟨7, 0xB, 0xA, 100, false⟩, ⟨8, 0xB, 0xA, 5, false⟩, ⟨7, 0xD, 0xA, 90, true⟩]⟩ :
          Store).items ∧
      ∃ it s1, findOne (fun i : Item => i.id == 7)
          (⟨[], [⟨7, 0xC1, 3, 0xA, 500, none, none, none⟩],
            [⟨7, 0xB, 0xA, 100, false⟩, ⟨8, 0xB, 0xA, 5, false⟩, ⟨7, 0xD, 0xA, 90, true⟩]⟩ :
            Store).items = some it ∧
        (((⟨[], [⟨7, 0xC1, 3, 0xA, 500, none, none, none⟩],
            [⟨7, 0xB, 0xA, 100, false⟩, ⟨8, 0xB, 0xA, 5, false⟩, ⟨7, 0xD, 0xA, 90, true⟩]⟩ :
            Store).items.map Item.id).Nodup →
          it = ⟨7, 0xC1, 3, 0xA, 500, none, none, none⟩) ∧
        handleLogItemClaimed 7 0xE
          ⟨[], [⟨7, 0xC1, 3, 0xA, 500, none, none, none⟩],
            [⟨7, 0xB, 0xA, 100, false⟩, ⟨8, 0xB, 0xA, 5, false⟩, ⟨7, 0xD, 0xA, 90, true⟩]⟩ =
          Except.ok s1 ∧
        findOne (fun i : Item => i.id == 7) s1.items =
          some { it with owner := 0xE, price := 0 } ∧
        (∀ o ∈ s1.offers, o.itemId ≠ 7) ∧
        s1.offers =
          ([⟨7, 0xB, 0xA, 100, false⟩, ⟨8, 0xB, 0xA, 5, false⟩, ⟨7, 0xD, 0xA, 90, true⟩] :
            List Offer).filter (fun o => o.itemId != 7) ∧
        s1.items.filter (fun i => i.id != 7) =
          ([⟨7, 0xC1, 3, 0xA, 500, none, none, none⟩] : List Item).filter
            (fun i => i.id != 7) ∧
        s1.items.length = 1 ∧
        s1.collections = [] :=
  ⟨by decide,
   handleLogItemClaimed_cascade
     ⟨[], [⟨7, 0xC1, 3, 0xA, 500, none, none, none⟩],
       [⟨7, 0xB, 0xA, 100, false⟩, ⟨8, 0xB, 0xA, 5, false⟩, ⟨7, 0xD, 0xA, 90, true⟩]⟩
     7 0xE ⟨7, 0xC1, 3, 0xA, 500, none, none, none⟩ (by decide) rfl⟩

/-- The claim of the witness above, evaluated: one Item with id 7 and three
Offers, two of them for item 7. -/
theorem handleLogItemClaimed_example :
    handleLogItemClaimed 7 0xE
        ⟨[], [⟨7, 0xC1, 3, 0xA, 500, none, none, none⟩],
          [⟨7, 0xB, 0xA, 100, false⟩, ⟨8, 0xB, 0xA, 5, false⟩, ⟨7, 0xD, 0xA, 90, true⟩]⟩ =
      Except.ok ⟨[], [⟨7, 0xC1, 3, 0xE, 0, none, none, none⟩], [⟨8, 0xB, 0xA, 5, false⟩]⟩ := by
  rfl

/-- C3 as the code has it. When the store holds no Item with the event's id, the
`LogItemClaimed` handler returns at its guard: it completes without error and
leaves every store as it was, the Offers with `itemId = id` included (the call
`Offer.deleteMany` comes after the guard and is not reached). -/
theorem handleLogItemClaimed_missing_item (s : Store) (id : Nat) (claimer : Address)
    (habsent : ∀ it ∈ s.items, it.id ≠ id) :
    handleLogItemClaimed id claimer s = Except.ok s := by
  have hnone : findOne (fun it : Item => it.id == id) s.items = none := by
    rw [findOne_eq_none_iff]
    intro it hit
    simpa using habsent it hit
  simp [handleLogItemClaimed, hnone]

theorem handleLogItemClaimed_missing_item_witness :
    (∀ it ∈ (⟨[], [], [⟨7, 0xB, 0xA, 100, false⟩]⟩ : Store).items, it.id ≠ 7) ∧
      handleLogItemClaimed 7 0xE ⟨[], [], [⟨7, 0xB, 0xA, 100, false⟩]⟩ =
        Except.ok ⟨[], [], [⟨7, 0xB, 0xA, 100, false⟩]⟩ :=
  ⟨by decide, handleLogItemClaimed_missing_item _ 7 0xE (by decide)⟩

/-- C3 as stated fails: the store below holds no Item with id 7 and one Offer with
`itemId = 7`; after `ItemClaimed(7, 0xE)` that Offer is still stored. -/
theorem handleLogItemClaimed_missing_item_keeps_offers :
    (∀ it ∈ (⟨[], [], [⟨7, 0xB, 0xA, 100, false⟩]⟩ : Store).items, it.id ≠ 7) ∧
      ¬ (∀ o ∈ (applyEvent ⟨fun _ => none, none, fun _ => none⟩ (Event.LogItemClaimed 7 0xE)
            ⟨[], [], [⟨7, 0xB, 0xA, 100, false⟩]⟩).offers, o.itemId ≠ 7) := by
  decide

/-- C8 as the code has it. List-then-sell: when the store holds an Item `it0`
with the event's id, `ItemListed(id, price)` completes and the Item `it` that the
store returned for that id (which is `it0` when ids are unique) is then stored
with the event's price cast to `Number`, which is the event's price itself
whenever that is below `2 ^ 53`; `ItemSold(id, buyer, _)` applied next completes
and that Item is then stored with `owner = buyer` and `price = 0`, whatever owner
and price it had. -/
theorem list_then_sell (s : Store) (id : Nat) (nftContract : Address) (tokenId : Nat)
    (seller buyer : Address) (price soldPrice : Nat) (it0 : Item)
    (hmem : it0 ∈ s.items) (hid : it0.id = id) :
    ∃ it s1 s2, findOne (fun i : Item => i.id == id) s.items = some it ∧
      ((s.items.map Item.id).Nodup → it = it0) ∧
      handleLogItemListed id nftContract tokenId seller price s = Except.ok s1 ∧
      findOne (fun i : Item => i.id == id) s1.items =
        some { it with price := castNumber price } ∧
      (price < 2 ^ 53 →
        findOne (fun i : Item => i.id == id) s1.items = some { it with price := price }) ∧
      handleLogItemSold id nftContract tokenId seller buyer soldPrice s1 = Except.ok s2 ∧
      findOne (fun i : Item => i.id == id) s2.items =
        some { it with owner := buyer, price := 0 } := by
  obtain ⟨it, hfound⟩ := findOne_of_mem (fun i : Item => i.id == id) s.items it0 hmem
    (by simp [hid])
  have h1 : findOne (fun i : Item => i.id == id)
      (saveFound (fun i : Item => i.id == id) (fun i => { i with price := castNumber price })
        s.items) = some { it with price := castNumber price } := by
    rw [findOne_saveFound, hfound]
    · rfl
    · intro d hd
      exact hd
  have hrun1 : handleLogItemListed id nftContract tokenId seller price s =
      Except.ok ⟨s.collections,
        saveFound (fun i : Item => i.id == id) (fun i => { i with price := castNumber price })
          s.items,
        s.offers⟩ := by
    simp only [handleLogItemListed, hfound]
  have hrun2 : handleLogItemSold id nftContract tokenId seller buyer soldPrice
      ⟨s.collections,
        saveFound (fun i : Item => i.id == id) (fun i => { i with price := castNumber price })
          s.items,
        s.offers⟩ =
      Except.ok ⟨s.collections,
        saveFound (fun i : Item => i.id == id) (fun i => { i with owner := buyer, price := 0 })
          (saveFound (fun i : Item => i.id == id)
            (fun i => { i with price := castNumber price }) s.items),
        s.offers⟩ := by
    simp only [handleLogItemSold, h1]
  refine ⟨it, _, _, hfound, findOne_item_unique s.items id it it0 hfound hmem hid, hrun1, h1,
    ?_, hrun2, ?_⟩
  · intro hsmall
    show findOne _ (saveFound _ _ s.items) = _
    rw [h1, castNumber_of_lt price hsmall]
  · show findOne _ (saveFound _ _ _) = _
    rw [findOne_saveFound, h1]
    · rfl
    · intro d hd
      exact hd

theorem list_then_sell_witness :
    (⟨7, 0xC1, 3, 0xA, 0, none, none, none⟩ : Item) ∈
        (⟨[], [⟨7, 0xC1, 3, 0xA, 0, none, none, none⟩], []⟩ : Store).items ∧
      ∃ it s1 s2, findOne (fun i : Item => i.id == 7)
          (⟨[], [⟨7, 0xC1, 3, 0xA, 0, none, none, none⟩], []⟩ : Store).items = some it ∧
        (((⟨[], [⟨7, 0xC1, 3, 0xA, 0, none, none, none⟩], []⟩ : Store).items.map
            Item.id).Nodup → it = ⟨7, 0xC1, 3, 0xA, 0, none, none, none⟩) ∧
        handleLogItemListed 7 0xC1 3 0xA 500
            ⟨[], [⟨7, 0xC1, 3, 0xA, 0, none, none, none⟩], []⟩ = Except.ok s1 ∧
        findOne (fun i : Item => i.id == 7) s1.items =
          some { it with price := castNumber 500 } ∧
        (500 < 2 ^ 53 →
          findOne (fun i : Item => i.id == 7) s1.items = some { it with price := 500 }) ∧
        handleLogItemSold 7 0xC1 3 0xA 0xB 500 s1 = Except.ok s2 ∧
        findOne (fun i : Item => i.id == 7) s2.items =
          some { it with owner := 0xB, price := 0 } :=
  ⟨by decide,
   list_then_sell ⟨[], [⟨7, 0xC1, 3, 0xA, 0, none, none, none⟩], []⟩ 7 0xC1 3 0xA 0xB 500 500
     ⟨7, 0xC1, 3, 0xA, 0, none, none, none⟩ (by decide) rfl⟩

/-- Scenario C of the spec, evaluated: `ItemListed(7, 500)` and then
`ItemSold(7, buyer 0xB, 500)` on a store whose Item 7 is owned by `0xA`. -/
theorem list_then_sell_example :
    (applyEvent ⟨fun _ => none, none, fun _ => none⟩ (Event.LogItemListed 7 0xC1 3 0xA 500)
        ⟨[], [⟨7, 0xC1, 3, 0xA, 0, none, none, none⟩], []⟩ =
      ⟨[], [⟨7, 0xC1, 3, 0xA, 500, none, none, none⟩], []⟩) ∧
    (applyEvent ⟨fun _ => none, none, fun _ => none⟩ (Event.LogItemSold 7 0xC1 3 0xA 0xB 500)
        ⟨[], [⟨7, 0xC1, 3, 0xA, 500, none, none, none⟩], []⟩ =
      ⟨[], [⟨7, 0xC1, 3, 0xB, 0, none, none, none⟩], []⟩) := by
  decide

/-- C8 as stated fails. The store holds Item 7; after `ItemListed(7, 2 ^ 53 + 1)`
the Item is stored with price `2 ^ 53`, the nearest double, and not with the
event's price. -/
theorem list_price_rounded :
    (⟨7, 0xC1, 3, 0xA, 0, none, none, none⟩ : Item) ∈
        (⟨[], [⟨7, 0xC1, 3, 0xA, 0, none, none, none⟩], []⟩ : Store).items ∧
      findOne (fun i : Item => i.id == 7)
          (applyEvent ⟨fun _ => none, none, fun _ => none⟩
            (Event.LogItemListed 7 0xC1 3 0xA 9007199254740993)
            ⟨[], [⟨7, 0xC1, 3, 0xA, 0, none, none, none⟩], []⟩).items =
        some ⟨7, 0xC1, 3, 0xA, 9007199254740992, none, none, none⟩ ∧
      ¬ (∃ it, findOne (fun i : Item => i.id == 7)
          (applyEvent ⟨fun _ => none, none, fun _ => none⟩
            (Event.LogItemListed 7 0xC1 3 0xA 9007199254740993)
            ⟨[], [⟨7, 0xC1, 3, 0xA, 0, none, none, none⟩], []⟩).items = some it ∧
        it.price = 9007199254740993) := by
  refine ⟨by decide, by decide, ?_⟩
  rintro ⟨it, hit, hprice⟩
  have h : findOne (fun i : Item => i.id == 7)
      (applyEvent ⟨fun _ => none, none, fun _ => none⟩
        (Event.LogItemListed 7 0xC1 3 0xA 9007199254740993)
        ⟨[], [⟨7, 0xC1, 3, 0xA, 0, none, none, none⟩], []⟩).items =
      some ⟨7, 0xC1, 3, 0xA, 9007199254740992, none, none, none⟩ := by
    decide
  rw [h] at hit
  cases hit
  revert hprice
  decide

/-! ### Applying an event twice -/

theorem handleLogCollectionAdded_again (id : Nat) (c : Address) (s s1 : Store)
    (h : handleLogCollectionAdded id c s = Except.ok s1) :
    ∃ e, handleLogCollectionAdded id c s1 = Except.error e := by
  unfold handleLogCollectionAdded saveNewCollection at h
  split at h
  · cases h
  · rename_i cs hcs
    cases h
    obtain ⟨e, he⟩ := saveNew_saveNew _ _ _ _ hcs
    exact ⟨e, by simp only [handleLogCollectionAdded, saveNewCollection, he]⟩

theorem handleLogItemAdded_again (sdk : Sdk) (id : Nat) (nc : Address) (t : Nat) (o : Address)
    (s s1 : Store) (h : handleLogItemAdded sdk id nc t o s = Except.ok s1) :
    ∃ e, handleLogItemAdded sdk id nc t o s1 = Except.error e := by
  unfold handleLogItemAdded at h
  split at h
  · cases h
  · rename_i r hr
    split at h
    · cases h
    · rename_i metadata hm
      simp only at h
      split at h
      · cases h
      · rename_i items hitems
        cases h
        obtain ⟨e, he⟩ := saveNew_saveNew _ _ _ _ hitems
        exact ⟨e, by simp only [handleLogItemAdded, hr, hm, he]⟩

theorem handleLogItemListed_again (id : Nat) (nc : Address) (t : Nat) (sl : Address) (p : Nat)
    (s s1 : Store) (h : handleLogItemListed id nc t sl p s = Except.ok s1) :
    handleLogItemListed id nc t sl p s1 = Except.ok s1 := by
  unfold handleLogItemListed at h
  split at h
  · cases h
    rename_i hnone
    simp only [handleLogItemListed, hnone]
  · rename_i it hit
    cases h
    have hfind : findOne (fun i : Item => i.id == id)
        (saveFound (fun i : Item => i.id == id) (fun i => { i with price := castNumber p })
          s.items) = some { it with price := castNumber p } := by
      rw [findOne_saveFound, hit]
      · rfl
      · intro d hd
        exact hd
    simp only [handleLogItemListed, hfind]
    rw [saveFound_saveFound]
    · intro d hd
      exact hd
    · intro d
      rfl

theorem handleLogItemSold_again (id : Nat) (nc : Address) (t : Nat) (sl b : Address) (p : Nat)
    (s s1 : Store) (h : handleLogItemSold id nc t sl b p s = Except.ok s1) :
    handleLogItemSold id nc t sl b p s1 = Except.ok s1 := by
  unfold handleLogItemSold at h
  split at h
  · cases h
    rename_i hnone
    simp only [handleLogItemSold, hnone]
  · rename_i it hit
    cases h
    have hfind : findOne (fun i : Item => i.id == id)
        (saveFound (fun i : Item => i.id == id) (fun i => { i with owner := b, price := 0 })
          s.items) = some { it with owner := b, price := 0 } := by
      rw [findOne_saveFound, hit]
      · rfl
      · intro d hd
        exact hd
    simp only [handleLogItemSold, hfind]
    rw [saveFound_saveFound]
    · intro d hd
      exact hd
    · intro d
      rfl

theorem handleLogItemClaimed_again (id : Nat) (c : Address) (s s1 : Store)
    (h : handleLogItemClaimed id c s = Except.ok s1) :
    handleLogItemClaimed id c s1 = Except.ok s1 := by
  unfold handleLogItemClaimed at h
  split at h
  · cases h
    rename_i hnone
    simp only [handleLogItemClaimed, hnone]
  · rename_i it hit
    cases h
    have hfind : findOne (fun i : Item => i.id == id)
        (saveFound (fun i : Item => i.id == id) (fun i => { i with owner := c, price := 0 })
          s.items) = some { it with owner := c, price := 0 } := by
      rw [findOne_saveFound, hit]
      · rfl
      · intro d hd
        exact hd
    simp only [handleLogItemClaimed, hfind]
    rw [saveFound_saveFound, deleteMany_deleteMany]
    · intro d hd
      exact hd
    · intro d
      rfl

theorem handleLogOfferAccepted_again (id : Nat) (o : Address) (s s1 : Store)
    (h : handleLogOfferAccepted id o s = Except.ok s1) :
    handleLogOfferAccepted id o s1 = Except.ok s1 := by
  unfold handleLogOfferAccepted at h
  simp only at h
  split at h
  · cases h
    rename_i hnone
    simp only [handleLogOfferAccepted, hnone]
  · rename_i f hf
    cases h
    have hfind : findOne (fun x : Offer => x.itemId == id && x.offerer == o)
        (saveFound (fun x : Offer => x.itemId == id && x.offerer == o)
          (fun x => { x with isAccepted := true }) s.offers) =
        some { f with isAccepted := true } := by
      rw [findOne_saveFound, hf]
      · rfl
      · intro d hd
        exact hd
    simp only [handleLogOfferAccepted, hfind]
    rw [saveFound_saveFound]
    · intro d hd
      exact hd
    · intro d
      rfl

theorem handleLogOfferPlaced_again (sdk : Sdk) (id : Nat) (nc : Address) (t : Nat)
    (b : Address) (p : Nat) (s s1 : Store)
    (h : handleLogOfferPlaced sdk id nc t b p s = Except.ok s1) :
    handleLogOfferPlaced sdk id nc t b p s1 = Except.ok s1 := by
  unfold handleLogOfferPlaced at h
  split at h
  · cases h
  · rename_i r hr
    split at h
    · cases h
      rename_i hitem
      simp only [handleLogOfferPlaced, hr, hitem]
    · rename_i item hitem
      simp only at h
      split at h
      · rename_i f hf
        cases h
        have hfind : findOne
            (fun x : Offer => x.itemId == id && x.offerer == b && x.seller == item.owner)
            (saveFound
              (fun x : Offer => x.itemId == id && x.offerer == b && x.seller == item.owner)
              (fun x => { x with price := castNumber p, isAccepted := false }) s.offers) =
            some { f with price := castNumber p, isAccepted := false } := by
          rw [findOne_saveFound, hf]
          · rfl
          · intro d hd
            exact hd
        simp only [handleLogOfferPlaced, hr, hitem, hfind]
        rw [saveFound_saveFound]
        · intro d hd
          exact hd
        · intro d
          rfl
      · rename_i hnone
        cases h
        have hnew : (fun x : Offer => x.itemId == id && x.offerer == b && x.seller == item.owner)
            { itemId := id, offerer := b, seller := item.owner, price := castNumber p,
              isAccepted := false } = true := by
          simp
        have hfind := findOne_append_new _ _ _ hnone hnew
        simp only [handleLogOfferPlaced, hr, hitem, hfind]
        rw [saveFound_append_new _ _ _ _ hnone hnew]

/-- C7. Handler idempotence: for each of the seven live handlers, every store and
every event payload, with the resolver giving the same answers both times,
applying the same event twice in sequence leaves the same record stores as
applying it once. -/
theorem applyEvent_idempotent (sdk : Sdk) (ev : Event) (s : Store) :
    applyEvent sdk ev (applyEvent sdk ev s) = applyEvent sdk ev s := by
  have key : ∀ s1, handle sdk ev s = Except.ok s1 →
      handle sdk ev s1 = Except.ok s1 ∨ ∃ e, handle sdk ev s1 = Except.error e := by
    intro s1 h
    cases ev with
    | LogCollectionAdded id c => exact Or.inr (handleLogCollectionAdded_again id c s s1 h)
    | LogItemAdded id nc t o => exact Or.inr (handleLogItemAdded_again sdk id nc t o s s1 h)
    | LogItemListed id nc t sl p => exact Or.inl (handleLogItemListed_again id nc t sl p s s1 h)
    | LogItemSold id nc t sl b p => exact Or.inl (handleLogItemSold_again id nc t sl b p s s1 h)
    | LogOfferPlaced id nc t b p =>
      exact Or.inl (handleLogOfferPlaced_again sdk id nc t b p s s1 h)
    | LogOfferAccepted id o => exact Or.inl (handleLogOfferAccepted_again id o s s1 h)
    | LogItemClaimed id c => exact Or.inl (handleLogItemClaimed_again id c s s1 h)
  cases hrun : handle sdk ev s with
  | error e => simp only [applyEvent, hrun]
  | ok s1 =>
    rcases key s1 hrun with h2 | ⟨e, h2⟩
    · simp only [applyEvent, hrun, h2]
    · simp only [applyEvent, hrun, h2]

/-- Two deliveries of the same `LogItemAdded` and of the same `LogCollectionAdded`,
evaluated: the second save is rejected and one record is stored. -/
theorem applyEvent_twice_example :
    applyEvent ⟨fun _ => some ⟨none, some ⟨some "N", some "D", some "I"⟩⟩, none, fun _ => none⟩
        (Event.LogItemAdded 7 0xC1 3 0xA)
        (applyEvent
          ⟨fun _ => some ⟨none, some ⟨some "N", some "D", some "I"⟩⟩, none, fun _ => none⟩
          (Event.LogItemAdded 7 0xC1 3 0xA) ⟨[], [], []⟩) =
      ⟨[], [⟨7, 0xC1, 3, 0xA, 0, some "N", some "D", some "I"⟩], []⟩ ∧
    applyEvent ⟨fun _ => none, none, fun _ => none⟩ (Event.LogCollectionAdded 1 0xABC)
        (applyEvent ⟨fun _ => none, none, fun _ => none⟩ (Event.LogCollectionAdded 1 0xABC)
          ⟨[], [], []⟩) =
      ⟨[⟨1, 0xABC⟩], [], []⟩ := by
  decide

/-! ### Offers placed and accepted -/

theorem handleLogOfferPlaced_fresh (sdk : Sdk) (id : Nat) (nc : Address) (t : Nat)
    (buyer : Address) (p : Nat) (s : Store) (r : GetItemResult) (owner : Address)
    (hr : sdk.getItem id = some r) (hitem : r.item = some ⟨owner⟩)
    (hnone : findOne (fun o : Offer => o.itemId == id && o.offerer == buyer && o.seller == owner)
      s.offers = none) :
    handleLogOfferPlaced sdk id nc t buyer p s =
      Except.ok ⟨s.collections, s.items,
        s.offers ++ [⟨id, buyer, owner, castNumber p, false⟩]⟩ := by
  simp only [handleLogOfferPlaced, hr, hitem, hnone]

theorem handleLogOfferPlaced_last (sdk : Sdk) (id : Nat) (nc : Address) (t : Nat)
    (buyer : Address) (p : Nat) (cs : List Collection) (is : List Item) (os : List Offer)
    (r : GetItemResult) (owner : Address) (q : Nat) (a : Bool)
    (hr : sdk.getItem id = some r) (hitem : r.item = some ⟨owner⟩)
    (hnone : findOne (fun o : Offer => o.itemId == id && o.offerer == buyer && o.seller == owner)
      os = none) :
    handleLogOfferPlaced sdk id nc t buyer p ⟨cs, is, os ++ [⟨id, buyer, owner, q, a⟩]⟩ =
      Except.ok ⟨cs, is, os ++ [⟨id, buyer, owner, castNumber p, false⟩]⟩ := by
  have hnew : (fun o : Offer => o.itemId == id && o.offerer == buyer && o.seller == owner)
      ⟨id, buyer, owner, q, a⟩ = true := by
    simp
  have hfind := findOne_append_new _ _ _ hnone hnew
  simp only [handleLogOfferPlaced, hr, hitem, hfind]
  rw [saveFound_append_new _ _ _ _ hnone hnew]

theorem handleLogOfferAccepted_last (id : Nat) (buyer : Address) (cs : List Collection)
    (is : List Item) (os : List Offer) (owner : Address) (q : Nat) (a : Bool)
    (hnone : findOne (fun o : Offer => o.itemId == id && o.offerer == buyer) os = none) :
    handleLogOfferAccepted id buyer ⟨cs, is, os ++ [⟨id, buyer, owner, q, a⟩]⟩ =
      Except.ok ⟨cs, is, os ++ [⟨id, buyer, owner, q, true⟩]⟩ := by
  have hnew : (fun o : Offer => o.itemId == id && o.offerer == buyer)
      ⟨id, buyer, owner, q, a⟩ = true := by
    simp
  have hfind := findOne_append_new _ _ _ hnone hnew
  simp only [handleLogOfferAccepted, hfind]
  rw [saveFound_append_new _ _ _ _ hnone hnew]

/-- C1 as the code has it. Upsert law of the `LogOfferPlaced` handler, whose
lookup key is (itemId, offerer, seller) and whose price field is of type
`Number`: for every store that holds no Offer for the pair (itemId = id,
offerer = buyer), every two prices and every owner that the resolver returns at
BOTH events alike, `OfferPlaced(id, buyer, p1)` followed by
`OfferPlaced(id, buyer, p2)`, with or without `OfferAccepted(id, buyer)` applied
between them, leaves the store with exactly one Offer for that pair, appended to
the Offers that were there, with `isAccepted = false` and with price `p2` cast to
`Number`, which is `p2` itself whenever `p2` is below `2 ^ 53`. -/
theorem offer_upsert_same_seller (sdk1 sdk2 : Sdk) (s : Store) (id : Nat)
    (nc1 nc2 : Address) (t1 t2 : Nat) (buyer : Address) (p1 p2 : Nat) (owner : Address)
    (r1 r2 : GetItemResult) (accepted : Bool)
    (hfresh : ∀ o ∈ s.offers, ¬ (o.itemId = id ∧ o.offerer = buyer))
    (h1 : sdk1.getItem id = some r1) (hitem1 : r1.item = some ⟨owner⟩)
    (h2 : sdk2.getItem id = some r2) (hitem2 : r2.item = some ⟨owner⟩) :
    (applyEvent sdk2 (Event.LogOfferPlaced id nc2 t2 buyer p2)
      (if accepted then
        applyEvent sdk1 (Event.LogOfferAccepted id buyer)
          (applyEvent sdk1 (Event.LogOfferPlaced id nc1 t1 buyer p1) s)
      else applyEvent sdk1 (Event.LogOfferPlaced id nc1 t1 buyer p1) s)).offers =
        s.offers ++ [⟨id, buyer, owner, castNumber p2, false⟩] ∧
    (applyEvent sdk2 (Event.LogOfferPlaced id nc2 t2 buyer p2)
      (if accepted then
        applyEvent sdk1 (Event.LogOfferAccepted id buyer)
          (applyEvent sdk1 (Event.LogOfferPlaced id nc1 t1 buyer p1) s)
      else applyEvent sdk1 (Event.LogOfferPlaced id nc1 t1 buyer p1) s)).offers.filter
        (fun o => o.itemId == id && o.offerer == buyer) =
          [⟨id, buyer, owner, castNumber p2, false⟩] ∧
    (p2 < 2 ^ 53 → castNumber p2 = p2) := by
  have hnone2 : findOne (fun o : Offer => o.itemId == id && o.offerer == buyer) s.offers =
      none := by
    rw [findOne_eq_none_iff]
    intro o ho
    have := hfresh o ho
    simp only [Bool.and_eq_false_imp, beq_iff_eq]
    intro hid
    simpa [hid] using this
  have hnone3 : findOne
      (fun o : Offer => o.itemId == id && o.offerer == buyer && o.seller == owner) s.offers =
      none := by
    rw [findOne_eq_none_iff] at hnone2 ⊢
    intro o ho
    simp [hnone2 o ho]
  have hfilter : s.offers.filter (fun o => o.itemId == id && o.offerer == buyer) = [] := by
    rw [List.filter_eq_nil_iff]
    intro o ho
    rw [findOne_eq_none_iff] at hnone2
    simp [hnone2 o ho]
  have e1 := handleLogOfferPlaced_fresh sdk1 id nc1 t1 buyer p1 s r1 owner h1 hitem1 hnone3
  have e2 := handleLogOfferAccepted_last id buyer s.collections s.items s.offers owner
    (castNumber p1) false hnone2
  have e3 : ∀ a, handleLogOfferPlaced sdk2 id nc2 t2 buyer p2
      ⟨s.collections, s.items, s.offers ++ [⟨id, buyer, owner, castNumber p1, a⟩]⟩ =
      Except.ok ⟨s.collections, s.items,
        s.offers ++ [⟨id, buyer, owner, castNumber p2, false⟩]⟩ :=
    fun a => handleLogOfferPlaced_last sdk2 id nc2 t2 buyer p2 s.collections s.items s.offers
      r2 owner (castNumber p1) a h2 hitem2 hnone3
  refine ⟨?_, ?_, castNumber_of_lt p2⟩
  · cases accepted <;> simp [applyEvent, handle, e1, e2, e3]
  · cases accepted <;> simp [applyEvent, handle, e1, e2, e3, hfilter]

theorem offer_upsert_same_seller_witness :
    (∀ o ∈ (⟨[], [], [⟨7, 0xD, 0xA, 5, false⟩, ⟨8, 0xB, 0xA, 6, true⟩]⟩ : Store).offers,
        ¬ (o.itemId = 7 ∧ o.offerer = 0xB)) ∧
      (applyEvent ⟨fun _ => some ⟨some ⟨0xA⟩, none⟩, none, fun _ => none⟩
        (Event.LogOfferPlaced 7 0xC1 3 0xB 200)
        (if true then
          applyEvent ⟨fun _ => some ⟨some ⟨0xA⟩, none⟩, none, fun _ => none⟩
            (Event.LogOfferAccepted 7 0xB)
            (applyEvent ⟨fun _ => some ⟨some ⟨0xA⟩, none⟩, none, fun _ => none⟩
              (Event.LogOfferPlaced 7 0xC1 3 0xB 100)
              ⟨[], [], [⟨7, 0xD, 0xA, 5, false⟩, ⟨8, 0xB, 0xA, 6, true⟩]⟩)
        else applyEvent ⟨fun _ => some ⟨some ⟨0xA⟩, none⟩, none, fun _ => none⟩
          (Event.LogOfferPlaced 7 0xC1 3 0xB 100)
          ⟨[], [], [⟨7, 0xD, 0xA, 5, false⟩, ⟨8, 0xB, 0xA, 6, true⟩]⟩)).offers =
        [⟨7, 0xD, 0xA, 5, false⟩, ⟨8, 0xB, 0xA, 6, true⟩] ++
          [⟨7, 0xB, 0xA, castNumber 200, false⟩] :=
  ⟨by decide,
   (offer_upsert_same_seller ⟨fun _ => some ⟨some ⟨0xA⟩, none⟩, none, fun _ => none⟩
     ⟨fun _ => some ⟨some ⟨0xA⟩, none⟩, none, fun _ => none⟩
     ⟨[], [], [⟨7, 0xD, 0xA, 5, false⟩, ⟨8, 0xB, 0xA, 6, true⟩]⟩ 7 0xC1 0xC1 3 3 0xB 100 200
     0xA ⟨some ⟨0xA⟩, none⟩ ⟨some ⟨0xA⟩, none⟩ true (by decide) rfl rfl rfl rfl).1⟩

/-- The sequence of the witness above, evaluated: the one Offer for (7, 0xB) has
the second price, 200, and is not accepted. -/
theorem offer_upsert_example :
    applyEvent ⟨fun _ => some ⟨some ⟨0xA⟩, none⟩, none, fun _ => none⟩
        (Event.LogOfferPlaced 7 0xC1 3 0xB 200)
        (applyEvent ⟨fun _ => some ⟨some ⟨0xA⟩, none⟩, none, fun _ => none⟩
          (Event.LogOfferAccepted 7 0xB)
          (applyEvent ⟨fun _ => some ⟨some ⟨0xA⟩, none⟩, none, fun _ => none⟩
            (Event.LogOfferPlaced 7 0xC1 3 0xB 100)
            ⟨[], [], [⟨7, 0xD, 0xA, 5, false⟩, ⟨8, 0xB, 0xA, 6, true⟩]⟩)) =
      ⟨[], [], [⟨7, 0xD, 0xA, 5, false⟩, ⟨8, 0xB, 0xA, 6, true⟩, ⟨7, 0xB, 0xA, 200, false⟩]⟩ := by
  decide

/-- C1 as stated fails, in two ways. From the empty store, with the resolver
returning owner `0xA` at the first event and `0xC` at the second (and prices 100
and 200), the two `OfferPlaced(7, 0xB, _)` events leave two Offers for the pair
(7, 0xB), one per seller, whether or not `OfferAccepted(7, 0xB)` came between
them.  And with the same owner at both events, a second price of one ether plus
one wei is stored as one ether, the nearest double. -/
theorem offer_upsert_owner_change :
    (∀ o ∈ (⟨[], [], []⟩ : Store).offers, ¬ (o.itemId = 7 ∧ o.offerer = 0xB)) ∧
      (100 : Nat) ≠ 200 ∧
      ((applyEvent ⟨fun _ => some ⟨some ⟨0xC⟩, none⟩, none, fun _ => none⟩
          (Event.LogOfferPlaced 7 0xC1 3 0xB 200)
          (applyEvent ⟨fun _ => some ⟨some ⟨0xA⟩, none⟩, none, fun _ => none⟩
            (Event.LogOfferPlaced 7 0xC1 3 0xB 100) ⟨[], [], []⟩)).offers.filter
          (fun o => o.itemId == 7 && o.offerer == 0xB) =
        [⟨7, 0xB, 0xA, 100, false⟩, ⟨7, 0xB, 0xC, 200, false⟩]) ∧
      ((applyEvent ⟨fun _ => some ⟨some ⟨0xC⟩, none⟩, none, fun _ => none⟩
          (Event.LogOfferPlaced 7 0xC1 3 0xB 200)
          (applyEvent ⟨fun _ => some ⟨some ⟨0xA⟩, none⟩, none, fun _ => none⟩
            (Event.LogOfferAccepted 7 0xB)
            (applyEvent ⟨fun _ => some ⟨some ⟨0xA⟩, none⟩, none, fun _ => none⟩
              (Event.LogOfferPlaced 7 0xC1 3 0xB 100) ⟨[], [], []⟩))).offers.filter
          (fun o => o.itemId == 7 && o.offerer == 0xB) =
        [⟨7, 0xB, 0xA, 100, true⟩, ⟨7, 0xB, 0xC, 200, false⟩]) ∧
      (100 : Nat) ≠ 1000000000000000001 ∧
      ((applyEvent ⟨fun _ => some ⟨some ⟨0xA⟩, none⟩, none, fun _ => none⟩
          (Event.LogOfferPlaced 7 0xC1 3 0xB 1000000000000000001)
          (applyEvent ⟨fun _ => some ⟨some ⟨0xA⟩, none⟩, none, fun _ => none⟩
            (Event.LogOfferPlaced 7 0xC1 3 0xB 100) ⟨[], [], []⟩)).offers.filter
          (fun o => o.itemId == 7 && o.offerer == 0xB) =
        [⟨7, 0xB, 0xA, 1000000000000000000, false⟩]) := by
  decide

/-- C9 as the code has it. Place-then-accept: for every store that holds no Offer
with `itemId = id`, every buyer and price, and a resolver that resolves the item
(to some owner), `OfferPlaced(id, buyer, price)` completes,
`OfferAccepted(id, buyer)` applied next completes, and the store then holds
exactly one Offer with `itemId = id`: its offerer is the buyer, its seller the
resolved owner, its `isAccepted` is true, and its price is the event's price cast
to `Number`, which is the event's price itself whenever that is below `2 ^ 53`;
the Offers that were there are kept. -/
theorem place_then_accept (sdk : Sdk) (s : Store) (id : Nat) (nc : Address) (t : Nat)
    (buyer : Address) (price : Nat) (r : GetItemResult) (owner : Address)
    (hfresh : ∀ o ∈ s.offers, o.itemId ≠ id)
    (hr : sdk.getItem id = some r) (hitem : r.item = some ⟨owner⟩) :
    ∃ s1 s2, handle sdk (Event.LogOfferPlaced id nc t buyer price) s = Except.ok s1 ∧
      handle sdk (Event.LogOfferAccepted id buyer) s1 = Except.ok s2 ∧
      s2.offers.filter (fun o => o.itemId == id) =
        [⟨id, buyer, owner, castNumber price, true⟩] ∧
      s2.offers = s.offers ++ [⟨id, buyer, owner, castNumber price, true⟩] ∧
      (price < 2 ^ 53 → castNumber price = price) ∧
      s2.items = s.items ∧ s2.collections = s.collections := by
  have hnone2 : findOne (fun o : Offer => o.itemId == id && o.offerer == buyer) s.offers =
      none := by
    rw [findOne_eq_none_iff]
    intro o ho
    simp [hfresh o ho]
  have hnone3 : findOne
      (fun o : Offer => o.itemId == id && o.offerer == buyer && o.seller == owner) s.offers =
      none := by
    rw [findOne_eq_none_iff]
    intro o ho
    simp [hfresh o ho]
  have hfilter : s.offers.filter (fun o => o.itemId == id) = [] := by
    rw [List.filter_eq_nil_iff]
    intro o ho
    simp [hfresh o ho]
  refine ⟨_, _, handleLogOfferPlaced_fresh sdk id nc t buyer price s r owner hr hitem hnone3,
    handleLogOfferAccepted_last id buyer s.collections s.items s.offers owner
      (castNumber price) false hnone2, ?_, rfl, castNumber_of_lt price, rfl, rfl⟩
  simp [hfilter]

theorem place_then_accept_witness :
    (∀ o ∈ (⟨[], [], [⟨8, 0xB, 0xA, 6, false⟩]⟩ : Store).offers, o.itemId ≠ 7) ∧
      ∃ s1 s2, handle ⟨fun _ => some ⟨some ⟨0xA⟩, none⟩, none, fun _ => none⟩
            (Event.LogOfferPlaced 7 0xC1 3 0xB 100) ⟨[], [], [⟨8, 0xB, 0xA, 6, false⟩]⟩ =
          Except.ok s1 ∧
        handle ⟨fun _ => some ⟨some ⟨0xA⟩, none⟩, none, fun _ => none⟩
            (Event.LogOfferAccepted 7 0xB) s1 = Except.ok s2 ∧
        s2.offers.filter (fun o => o.itemId == 7) = [⟨7, 0xB, 0xA, castNumber 100, true⟩] ∧
        s2.offers = [⟨8, 0xB, 0xA, 6, false⟩] ++ [⟨7, 0xB, 0xA, castNumber 100, true⟩] ∧
        (100 < 2 ^ 53 → castNumber 100 = 100) ∧
        s2.items = [] ∧ s2.collections = [] :=
  ⟨by decide,
   place_then_accept ⟨fun _ => some ⟨some ⟨0xA⟩, none⟩, none, fun _ => none⟩
     ⟨[], [], [⟨8, 0xB, 0xA, 6, false⟩]⟩ 7 0xC1 3 0xB 100 ⟨some ⟨0xA⟩, none⟩ 0xA
     (by decide) rfl rfl⟩

/-- Scenario D of the spec, evaluated: `OfferPlaced(7, 0xB, 100)` and then
`OfferAccepted(7, 0xB)`, the resolver giving owner `0xA`. -/
theorem place_then_accept_example :
    applyEvent ⟨fun _ => some ⟨some ⟨0xA⟩, none⟩, none, fun _ => none⟩
        (Event.LogOfferAccepted 7 0xB)
        (applyEvent ⟨fun _ => some ⟨some ⟨0xA⟩, none⟩, none, fun _ => none⟩
          (Event.LogOfferPlaced 7 0xC1 3 0xB 100) ⟨[], [], []⟩) =
      ⟨[], [], [⟨7, 0xB, 0xA, 100, true⟩]⟩ := by
  decide

/-- C9 as stated fails. From the empty store, with the item resolved,
`OfferPlaced(7, 0xB, 10 ^ 18 + 1)` and then `OfferAccepted(7, 0xB)` leave one
accepted Offer for item 7 whose price is `10 ^ 18`, the nearest double, and not
the event's price. -/
theorem place_price_rounded :
    (∀ o ∈ (⟨[], [], []⟩ : Store).offers, o.itemId ≠ 7) ∧
      (applyEvent ⟨fun _ => some ⟨some ⟨0xA⟩, none⟩, none, fun _ => none⟩
          (Event.LogOfferAccepted 7 0xB)
          (applyEvent ⟨fun _ => some ⟨some ⟨0xA⟩, none⟩, none, fun _ => none⟩
            (Event.LogOfferPlaced 7 0xC1 3 0xB 1000000000000000001)
            ⟨[], [], []⟩)).offers.filter (fun o => o.itemId == 7) =
        [⟨7, 0xB, 0xA, 1000000000000000000, true⟩] ∧
      ¬ (∃ o ∈ (applyEvent ⟨fun _ => some ⟨some ⟨0xA⟩, none⟩, none, fun _ => none⟩
          (Event.LogOfferAccepted 7 0xB)
          (applyEvent ⟨fun _ => some ⟨some ⟨0xA⟩, none⟩, none, fun _ => none⟩
            (Event.LogOfferPlaced 7 0xC1 3 0xB 1000000000000000001)
            ⟨[], [], []⟩)).offers, o.itemId = 7 ∧ o.price = 1000000000000000001) := by
  decide

/-! ## Theorems on the backfill -/

theorem promiseAll_map {α β : Type} (f : α → Option β) (g : α → β) (l : List α)
    (h : ∀ a ∈ l, f a = some (g a)) : promiseAll (l.map f) = some (l.map g) := by
  induction l with
  | nil => rfl
  | cons a as ih =>
    have ha : f a = some (g a) := h a (by simp)
    have has : promiseAll (as.map f) = some (as.map g) :=
      ih (fun b hb => h b (by simp [hb]))
    simp [promiseAll, ha, has]

theorem countArr_eq_range' (n : Nat) : countArr n = List.range' 1 n := by
  unfold countArr
  rw [List.range_eq_range', ← List.map_add_range' 1 0 n 1]
  simp [Nat.add_comm]

theorem mem_countArr (n i : Nat) : i ∈ countArr n ↔ 1 ≤ i ∧ i ≤ n := by
  rw [countArr_eq_range', List.mem_range'_1]
  omega

theorem enumFrom_map_range' {β : Type} (f : Nat → β) (m s : Nat) :
    List.enumFrom s ((List.range' s m).map f) = (List.range' s m).map (fun i => (i, f i)) := by
  induction m generalizing s with
  | zero => rfl
  | succ m ih => simp [List.range'_succ, List.enumFrom_cons, ih]

theorem filter_isSome_filterMap {α β : Type} (g : α → Option β) (l : List α) :
    (((l.map g).filter Option.isSome).filterMap id) = l.filterMap g := by
  induction l with
  | nil => rfl
  | cons a as ih =>
    cases hg : g a with
    | none => simp [List.filterMap_cons, hg, ih]
    | some b => simp [List.filterMap_cons, hg, ih]

theorem offersToSave_countArr (L : Nat → List ChainOffer) (n : Nat) :
    offersToSave ((countArr n).map L) = (countArr n).filterMap (firstOffer L) := by
  unfold offersToSave
  rw [filter_isSome_filterMap, countArr_eq_range']
  have hshift : List.range' 1 n = (List.range' 0 n).map (fun i => i + 1) := by
    rw [← List.map_add_range' 1 0 n 1]
    simp [Nat.add_comm]
  rw [hshift, List.map_map, List.enum, enumFrom_map_range', List.filterMap_map,
    List.filterMap_map]
  apply List.filterMap_congr
  intro i _
  simp only [Function.comp, firstOffer]

theorem map_itemId_filterMap_firstOffer (L : Nat → List ChainOffer) (l : List Nat) :
    (l.filterMap (firstOffer L)).map Offer.itemId = l.filter (fun i => !(L i).isEmpty) := by
  induction l with
  | nil => rfl
  | cons i is ih =>
    cases hL : L i with
    | nil => simp [List.filterMap_cons, List.filter_cons, firstOffer, hL, ih]
    | cons f rest => simp [List.filterMap_cons, List.filter_cons, firstOffer, hL, ih]

/-- C10. Offer backfill selection in `inputExistingOffers`: with `itemCount = n`
and `getOffers(i) = L i` for the indices `1..n`, the step completes without error
and the Offer store it leaves is the list `inserted` of the records selected as
the spec words it (`firstOffer`, taken over `1, ..., n` in order).  The `itemId`s
of `inserted` are the indices of `1..n` whose list is non-empty, in increasing
order and each once, so a dropped empty entry shifts no later `itemId`; every
record of `inserted` has `offerer`, `seller`, `price` and `isAccepted` copied
from the first element of the list of its own `itemId`. -/
theorem inputExistingOffers_selection (contract : Contract) (sdk : Sdk) (s : Store) (n : Nat)
    (L : Nat → List ChainOffer) (hcount : contract.itemCount = some n)
    (hoffers : ∀ i, 1 ≤ i → i ≤ n → sdk.getOffers i = some (L i)) :
    ∃ inserted, inputExistingOffers true contract sdk s =
        (⟨s.collections, s.items, inserted⟩, none) ∧
      inserted = (countArr n).filterMap (firstOffer L) ∧
      inserted.map Offer.itemId = (List.range' 1 n).filter (fun i => !(L i).isEmpty) ∧
      (inserted.map Offer.itemId).Pairwise (fun a b => a < b) ∧
      ∀ r ∈ inserted, 1 ≤ r.itemId ∧ r.itemId ≤ n ∧ ∃ first rest, L r.itemId = first :: rest ∧
        r = ⟨r.itemId, first.offerer, first.seller, first.price, first.isAccepted⟩ := by
  have hall : promiseAll ((countArr n).map sdk.getOffers) = some ((countArr n).map L) := by
    apply promiseAll_map
    intro i hi
    rw [mem_countArr] at hi
    exact hoffers i hi.1 hi.2
  have hids := map_itemId_filterMap_firstOffer L (countArr n)
  refine ⟨(countArr n).filterMap (firstOffer L), ?_, rfl, ?_, ?_, ?_⟩
  · simp [inputExistingOffers, hcount, hall, deleteMany, offersToSave_countArr]
  · rw [hids, countArr_eq_range']
  · rw [hids, countArr_eq_range']
    exact (List.pairwise_lt_range' 1 n).filter _
  · intro r hr
    rw [List.mem_filterMap] at hr
    obtain ⟨i, hi, hsel⟩ := hr
    rw [mem_countArr] at hi
    unfold firstOffer at hsel
    cases hL : L i with
    | nil => simp [hL] at hsel
    | cons first rest =>
      simp only [hL, Option.some.injEq] at hsel
      subst hsel
      exact ⟨hi.1, hi.2, first, rest, hL, rfl⟩

theorem inputExistingOffers_selection_witness :
    ∃ inserted, inputExistingOffers true ⟨none, fun _ => none, some 4⟩
        ⟨fun _ => none, none,
          fun i => some (if i = 2 then [⟨0xB, 0xA, 100, false⟩, ⟨0xD, 0xA, 90, false⟩]
            else if i = 4 then [⟨0xD, 0xE, 7, true⟩] else [])⟩
        ⟨[], [], [⟨9, 1, 2, 3, true⟩]⟩ = (⟨[], [], inserted⟩, none) ∧
      inserted = (countArr 4).filterMap
        (firstOffer (fun i => if i = 2 then [⟨0xB, 0xA, 100, false⟩, ⟨0xD, 0xA, 90, false⟩]
            else if i = 4 then [⟨0xD, 0xE, 7, true⟩] else [])) ∧
      inserted.map Offer.itemId = (List.range' 1 4).filter
        (fun i => !((fun i => if i = 2 then
              ([⟨0xB, 0xA, 100, false⟩, ⟨0xD, 0xA, 90, false⟩] : List ChainOffer)
            else if i = 4 then [⟨0xD, 0xE, 7, true⟩] else []) i).isEmpty) ∧
      (inserted.map Offer.itemId).Pairwise (fun a b => a < b) ∧
      ∀ r ∈ inserted, 1 ≤ r.itemId ∧ r.itemId ≤ 4 ∧ ∃ first rest,
        (fun i => if i = 2 then
              ([⟨0xB, 0xA, 100, false⟩, ⟨0xD, 0xA, 90, false⟩] : List ChainOffer)
            else if i = 4 then [⟨0xD, 0xE, 7, true⟩] else []) r.itemId = first :: rest ∧
        r = ⟨r.itemId, first.offerer, first.seller, first.price, first.isAccepted⟩ :=
  inputExistingOffers_selection ⟨none, fun _ => none, some 4⟩
    ⟨fun _ => none, none,
      fun i => some (if i = 2 then [⟨0xB, 0xA, 100, false⟩, ⟨0xD, 0xA, 90, false⟩]
        else if i = 4 then [⟨0xD, 0xE, 7, true⟩] else [])⟩
    ⟨[], [], [⟨9, 1, 2, 3, true⟩]⟩ 4
    (fun i => if i = 2 then [⟨0xB, 0xA, 100, false⟩, ⟨0xD, 0xA, 90, false⟩]
        else if i = 4 then [⟨0xD, 0xE, 7, true⟩] else [])
    rfl (fun _ _ _ => rfl)

/-- The step of the witness above, evaluated: of four items, the second and the
fourth have offers, and two records are stored, under `itemId` 2 and 4. -/
theorem inputExistingOffers_example :
    inputExistingOffers true ⟨none, fun _ => none, some 4⟩
        ⟨fun _ => none, none,
          fun i => some (if i = 2 then [⟨0xB, 0xA, 100, false⟩, ⟨0xD, 0xA, 90, false⟩]
            else if i = 4 then [⟨0xD, 0xE, 7, true⟩] else [])⟩
        ⟨[], [], [⟨9, 1, 2, 3, true⟩]⟩ =
      (⟨[], [], [⟨2, 0xB, 0xA, 100, false⟩, ⟨4, 0xD, 0xE, 7, true⟩]⟩, none) := by
  decide

/-! ### The backfill does not read the stores it rebuilds -/

theorem inputExistingCollections_up (contract : Contract) (s : Store) :
    inputExistingCollections true contract s =
      (⟨(inputExistingCollections true contract ⟨[], [], []⟩).1.collections, s.items, s.offers⟩,
        (inputExistingCollections true contract ⟨[], [], []⟩).2) := by
  unfold inputExistingCollections
  simp only [Bool.not_true, Bool.false_eq_true, if_false, deleteMany, Bool.not_true,
    List.filter_false, List.filter_nil]
  cases contract.collectionCount with
  | none => rfl
  | some n =>
    simp only
    cases promiseAll ((countArr n).map contract.collections) <;> rfl

theorem inputExistingItems_up (sdk : Sdk) (s : Store) :
    inputExistingItems true sdk s =
      (⟨s.collections, (inputExistingItems true sdk ⟨[], [], []⟩).1.items, s.offers⟩,
        (inputExistingItems true sdk ⟨[], [], []⟩).2) := by
  unfold inputExistingItems
  simp only [Bool.not_true, Bool.false_eq_true, if_false, deleteMany, Bool.not_true,
    List.filter_false, List.filter_nil]
  cases sdk.loadItems with
  | none => rfl
  | some r =>
    obtain ⟨items, metadataArrModified⟩ := r
    simp only
    cases itemsToSave (combinedItems items metadataArrModified) <;> rfl

theorem inputExistingOffers_up (contract : Contract) (sdk : Sdk) (s : Store) :
    inputExistingOffers true contract sdk s =
      (⟨s.collections, s.items,
          (inputExistingOffers true contract sdk ⟨[], [], []⟩).1.offers⟩,
        (inputExistingOffers true contract sdk ⟨[], [], []⟩).2) := by
  unfold inputExistingOffers
  simp only [Bool.not_true, Bool.false_eq_true, if_false, deleteMany, Bool.not_true,
    List.filter_false, List.filter_nil]
  cases contract.itemCount with
  | none => rfl
  | some n =>
    simp only
    cases promiseAll ((countArr n).map sdk.getOffers) <;> rfl

theorem backfill_down (contract : Contract) (sdk : Sdk) (s : Store) :
    (backfill false contract sdk s).error = some Err.storeDown := by
  simp [backfill, inputExistingCollections]

theorem backfill_up_of_ok (contract : Contract) (sdk : Sdk) (s : Store)
    (hok : (backfill true contract sdk s).error = none) :
    backfill true contract sdk s =
      ⟨[Step.inputExistingCollections, Step.inputExistingItems, Step.inputExistingOffers],
        ⟨(inputExistingCollections true contract ⟨[], [], []⟩).1.collections,
          (inputExistingItems true sdk ⟨[], [], []⟩).1.items,
          (inputExistingOffers true contract sdk ⟨[], [], []⟩).1.offers⟩, none⟩ ∧
    (inputExistingCollections true contract ⟨[], [], []⟩).2 = none ∧
    (inputExistingItems true sdk ⟨[], [], []⟩).2 = none ∧
    (inputExistingOffers true contract sdk ⟨[], [], []⟩).2 = none := by
  unfold backfill at hok ⊢
  rw [inputExistingCollections_up] at hok ⊢
  cases hc : (inputExistingCollections true contract ⟨[], [], []⟩).2 with
  | some e => simp [hc] at hok
  | none =>
    simp only [hc] at hok ⊢
    rw [inputExistingItems_up] at hok ⊢
    cases hi : (inputExistingItems true sdk ⟨[], [], []⟩).2 with
    | some e => simp [hi] at hok
    | none =>
      simp only [hi] at hok ⊢
      rw [inputExistingOffers_up] at hok ⊢
      simp only at hok
      simp [hok]

theorem backfill_up_of_parts (contract : Contract) (sdk : Sdk) (s : Store)
    (hc : (inputExistingCollections true contract ⟨[], [], []⟩).2 = none)
    (hi : (inputExistingItems true sdk ⟨[], [], []⟩).2 = none)
    (ho : (inputExistingOffers true contract sdk ⟨[], [], []⟩).2 = none) :
    backfill true contract sdk s =
      ⟨[Step.inputExistingCollections, Step.inputExistingItems, Step.inputExistingOffers],
        ⟨(inputExistingCollections true contract ⟨[], [], []⟩).1.collections,
          (inputExistingItems true sdk ⟨[], [], []⟩).1.items,
          (inputExistingOffers true contract sdk ⟨[], [], []⟩).1.offers⟩, none⟩ := by
  unfold backfill
  rw [inputExistingCollections_up]
  simp only [hc]
  rw [inputExistingItems_up]
  simp only [hi]
  rw [inputExistingOffers_up]
  simp only [ho]

/-- C6. Idempotence of backfill: for every initial store and every fixed state
of the contract and resolver on which the backfill (`inputExistingCollections`,
`inputExistingItems`, `inputExistingOffers` in sequence) succeeds, running it
again on the stores it left succeeds and leaves the same Collection, Item and
Offer stores; and run from any other initial store it succeeds with those same
stores, so they depend on the contract and resolver state alone. -/
theorem backfill_idempotent (up : Bool) (contract : Contract) (sdk : Sdk) (s : Store)
    (hok : (backfill up contract sdk s).error = none) :
    backfill up contract sdk (backfill up contract sdk s).store = backfill up contract sdk s ∧
    ∀ s0, backfill up contract sdk s0 = backfill up contract sdk s := by
  cases up with
  | false =>
    rw [backfill_down] at hok
    cases hok
  | true =>
    obtain ⟨hb, hc, hi, ho⟩ := backfill_up_of_ok contract sdk s hok
    have hall : ∀ s0, backfill true contract sdk s0 = backfill true contract sdk s := by
      intro s0
      rw [hb, backfill_up_of_parts contract sdk s0 hc hi ho]
    exact ⟨hall _, hall⟩

theorem backfill_idempotent_witness :
    (backfill true ⟨some 2, fun i => some (0x100 + i), some 3⟩
        ⟨fun _ => none,
          some ([⟨1, 0xC1, 3, 0xA, 0⟩, ⟨2, 0xC1, 4, 0xB, 500⟩],
            [some ⟨some "N", none, none⟩, some ⟨none, none, none⟩]),
          fun i => some (if i = 2 then [⟨0xD, 0xB, 100, false⟩] else [])⟩
        ⟨[⟨9, 9⟩], [⟨9, 0xC1, 3, 0xA, 0, none, none, none⟩], [⟨9, 1, 2, 3, true⟩]⟩).error =
      none ∧
    backfill true ⟨some 2, fun i => some (0x100 + i), some 3⟩
        ⟨fun _ => none,
          some ([⟨1, 0xC1, 3, 0xA, 0⟩, ⟨2, 0xC1, 4, 0xB, 500⟩],
            [some ⟨some "N", none, none⟩, some ⟨none, none, none⟩]),
          fun i => some (if i = 2 then [⟨0xD, 0xB, 100, false⟩] else [])⟩
        (backfill true ⟨some 2, fun i => some (0x100 + i), some 3⟩
          ⟨fun _ => none,
            some ([⟨1, 0xC1, 3, 0xA, 0⟩, ⟨2, 0xC1, 4, 0xB, 500⟩],
              [some ⟨some "N", none, none⟩, some ⟨none, none, none⟩]),
            fun i => some (if i = 2 then [⟨0xD, 0xB, 100, false⟩] else [])⟩
          ⟨[⟨9, 9⟩], [⟨9, 0xC1, 3, 0xA, 0, none, none, none⟩], [⟨9, 1, 2, 3, true⟩]⟩).store =
      backfill true ⟨some 2, fun i => some (0x100 + i), some 3⟩
        ⟨fun _ => none,
          some ([⟨1, 0xC1, 3, 0xA, 0⟩, ⟨2, 0xC1, 4, 0xB, 500⟩],
            [some ⟨some "N", none, none⟩, some ⟨none, none, none⟩]),
          fun i => some (if i = 2 then [⟨0xD, 0xB, 100, false⟩] else [])⟩
        ⟨[⟨9, 9⟩], [⟨9, 0xC1, 3, 0xA, 0, none, none, none⟩], [⟨9, 1, 2, 3, true⟩]⟩ :=
  ⟨by decide,
   (backfill_idempotent true ⟨some 2, fun i => some (0x100 + i), some 3⟩
      ⟨fun _ => none,
        some ([⟨1, 0xC1, 3, 0xA, 0⟩, ⟨2, 0xC1, 4, 0xB, 500⟩],
          [some ⟨some "N", none, none⟩, some ⟨none, none, none⟩]),
        fun i => some (if i = 2 then [⟨0xD, 0xB, 100, false⟩] else [])⟩
      ⟨[⟨9, 9⟩], [⟨9, 0xC1, 3, 0xA, 0, none, none, none⟩], [⟨9, 1, 2, 3, true⟩]⟩
      (by decide)).1⟩

/-- The backfill of the state used above, evaluated: the records that were in the
stores are gone and the stores hold what the contract and resolver report. -/
theorem backfill_example :
    backfill true ⟨some 2, fun i => some (0x100 + i), some 3⟩
        ⟨fun _ => none,
          some ([⟨1, 0xC1, 3, 0xA, 0⟩, ⟨2, 0xC1, 4, 0xB, 500⟩],
            [some ⟨some "N", none, none⟩, some ⟨none, none, none⟩]),
          fun i => some (if i = 2 then [⟨0xD, 0xB, 100, false⟩] else [])⟩
        ⟨[⟨9, 9⟩], [⟨9, 0xC1, 3, 0xA, 0, none, none, none⟩], [⟨9, 1, 2, 3, true⟩]⟩ =
      ⟨[Step.inputExistingCollections, Step.inputExistingItems, Step.inputExistingOffers],
        ⟨[⟨1, 0x101⟩, ⟨2, 0x102⟩],
          [⟨1, 0xC1, 3, 0xA, 0, some "N", none, none⟩, ⟨2, 0xC1, 4, 0xB, 500, none, none, none⟩],
          [⟨2, 0xD, 0xB, 100, false⟩]⟩,
        none⟩ := by
  decide

/-! ## Theorems on startup -/

/-- C5 as the code has it. A failure of `mongoose.connect` is caught and logged
and does not abort `start` at that point: whatever the contract, the resolver and
the stores, `start` goes on to call `inputExistingCollections`, whose first
record-store operation is rejected because the store does not answer, and `start`
rejects there.  So `inputExistingItems` and `inputExistingOffers` are not run, no
live handler is registered, and the stores are as they were. -/
theorem start_connect_failure (contract : Contract) (sdk : Sdk) (s : Store) :
    start false contract sdk s =
      ⟨[Step.connectError, Step.inputExistingCollections], s, false, some Err.storeDown⟩ := by
  have hstep : inputExistingCollections false contract s = (s, some Err.storeDown) := by
    simp [inputExistingCollections]
  have hb : backfill false contract sdk s =
      ⟨[Step.inputExistingCollections], s, some Err.storeDown⟩ := by
    simp only [backfill, hstep]
  simp [start, hb]

/-- C5 as stated fails. With the connection failing, `start` still enters the
first of the three backfill steps, `inputExistingCollections`. -/
theorem start_connect_failure_runs_backfill :
    Step.inputExistingCollections ∈
      (start false ⟨some 2, fun i => some (0x100 + i), some 0⟩
        ⟨fun _ => none, some ([], []), fun _ => none⟩ ⟨[⟨9, 9⟩], [], []⟩).steps := by
  decide

/-- The run of `start` after a successful connection, step by step: each backfill
step is entered only when the one before it completed, the stores are those left
by the last step entered, and the handlers are registered exactly when all three
completed. -/
theorem start_connected (contract : Contract) (sdk : Sdk) (s : Store) :
    start true contract sdk s =
      match inputExistingCollections true contract s with
      | (s1, some e) => ⟨[Step.connected, Step.inputExistingCollections], s1, false, some e⟩
      | (s1, none) =>
        match inputExistingItems true sdk s1 with
        | (s2, some e) =>
          ⟨[Step.connected, Step.inputExistingCollections, Step.inputExistingItems], s2,
            false, some e⟩
        | (s2, none) =>
          match inputExistingOffers true contract sdk s2 with
          | (s3, some e) =>
            ⟨[Step.connected, Step.inputExistingCollections, Step.inputExistingItems,
              Step.inputExistingOffers], s3, false, some e⟩
          | (s3, none) =>
            ⟨[Step.connected, Step.inputExistingCollections, Step.inputExistingItems,
              Step.inputExistingOffers, Step.handlersRegistered], s3, true, none⟩ := by
  unfold start backfill
  rcases h1 : inputExistingCollections true contract s with ⟨s1, _ | e1⟩
  · simp only
    rcases h2 : inputExistingItems true sdk s1 with ⟨s2, _ | e2⟩
    · simp only
      rcases h3 : inputExistingOffers true contract sdk s2 with ⟨s3, _ | e3⟩
      · simp
      · simp
    · simp
  · simp

/-- A run of `start` after a successful connection, evaluated. -/
theorem start_example :
    start true ⟨some 2, fun i => some (0x100 + i), some 3⟩
        ⟨fun _ => none,
          some ([⟨1, 0xC1, 3, 0xA, 0⟩], [some ⟨some "N", none, none⟩]),
          fun i => some (if i = 1 then [⟨0xD, 0xA, 100, false⟩] else [])⟩
        ⟨[⟨9, 9⟩], [], [⟨9, 1, 2, 3, true⟩]⟩ =
      ⟨[Step.connected, Step.inputExistingCollections, Step.inputExistingItems,
          Step.inputExistingOffers, Step.handlersRegistered],
        ⟨[⟨1, 0x101⟩, ⟨2, 0x102⟩], [⟨1, 0xC1, 3, 0xA, 0, some "N", none, none⟩],
          [⟨1, 0xD, 0xA, 100, false⟩]⟩,
        true, none⟩ := by
  decide

end Indexer
